import Mathlib

/-!
# Verification of the LDAP connector (`src/connector/ldap/ldap.go`)

A shallow embedding of the connector's data model and operations.
Go strings are modelled as Lean `String`, Go slices as `List`, Go's
multiple return values as tuples, and Go `error` values as a structured
inductive `Err` whose constructors correspond one-to-one to the
`fmt.Errorf` construction sites of the source, carrying the formatted
values.

The directory server and the network, reached through the third-party
`gopkg.in/ldap.v2` client, are abstracted as a deterministic oracle
`Dir` (dial outcome, bind outcomes per DN/password pair, search results
per request).  Every connection-level action the connector performs is
additionally logged into an event trace (`Event`), so that ordering and
connection-identity properties can be stated.
-/

/-- Modelled from the spec (§3 DirectoryEntry): one attribute of a
directory entry, a name together with its ordered string values.  The
concrete type `ldap.EntryAttribute` lives in the external directory
client library, not under `src/`. -/
structure EntryAttribute where
  Name : String
  Values : List String
deriving DecidableEq, Inhabited

/-- Modelled from the spec (§3 DirectoryEntry): a directory entry is a
distinguished name plus an ordered collection of attributes.  The
concrete type `ldap.Entry` lives in the external directory client
library, not under `src/`. -/
structure Entry where
  DN : String
  Attributes : List EntryAttribute
deriving DecidableEq, Inhabited

/-- The zero value of `ldap.Entry` (`ldap.Entry{}` in the source). -/
def Entry.zero : Entry := { DN := "", Attributes := [] }

/-- A minimal JSON document model.  `encoding/json` is Go standard
library code, not under `src/`; the shapes produced for the connector's
`refreshData` need only null, strings, arrays and objects. -/
inductive Json where
  | null
  | str (s : String)
  | arr (elems : List Json)
  | obj (fields : List (String × Json))

/-- Modelled from the spec (§3 Identity): the normalized identity record
returned to the host.  The concrete type `connector.Identity` lives in
the host's connector package, not under `src/`.  `ConnectorData` is the
opaque state field; `none` models a nil byte slice, `some j` models the
serialized JSON document `j` (the textual printing of JSON is standard
library code and is not re-verified here). -/
structure Identity where
  UserID : String
  Username : String
  Email : String
  Groups : List String
  ConnectorData : Option Json

/-- The zero value `connector.Identity{}`. -/
def Identity.zero : Identity :=
  { UserID := "", Username := "", Email := "", Groups := [], ConnectorData := none }

/-- Modelled from the spec (§6): the host's scope request, two booleans.
The concrete type `connector.Scopes` lives in the host's connector
package, not under `src/`. -/
structure Scopes where
  OfflineAccess : Bool
  Groups : Bool

/-- An LDAP search request as built by the connector
(`ldap.SearchRequest` fields actually populated by the source). -/
structure SearchRequest where
  BaseDN : String
  Filter : String
  Scope : Nat
  Attributes : List String
deriving DecidableEq

/-- Outcome of a directory `Bind` call that did not succeed.  `ldapErr`
models an error of dynamic type `*ldap.Error` with the given result
code (the source inspects exactly that); `other` models any other
error value. -/
inductive BindErr where
  | ldapErr (resultCode : Nat)
  | other (msg : String)
deriving DecidableEq

/-- `ldap.LDAPResultInvalidCredentials` (protocol result code 49),
a constant of the external directory client library. -/
def LDAPResultInvalidCredentials : Nat := 49

/-- The source's check `ldapErr.ResultCode == ldap.LDAPResultInvalidCredentials`
guarded by the type assertion `err.(*ldap.Error)`. -/
def bindInvalidCred : BindErr → Bool
  | .ldapErr rc => rc == LDAPResultInvalidCredentials
  | .other _ => false

/-- Structured rendering of every `error` value the connector can
produce.  Each constructor corresponds to one `fmt.Errorf` site in
`ldap.go` and carries the values that site formats into the message. -/
inductive Err where
  /-- `"failed to connect: %v"` in `do`. -/
  | connectFailed (msg : String)
  /-- `"ldap: initial bind for user %q failed: %v"` in `do`. -/
  | initialBind (bindDN : String) (e : BindErr)
  /-- `"ldap: search with filter %q failed: %v"` in `userEntry`. -/
  | searchFailed (filter : String) (msg : String)
  /-- `"ldap: filter returned multiple (%d) results: %q"` in `userEntry`. -/
  | multipleResults (n : Nat) (filter : String)
  /-- `"ldap: failed to bind as dn %q: %v"` in `Login`. -/
  | bindFailed (dn : String) (e : BindErr)
  /-- `"ldap: entry %q missing following required attribute(s): %q"`
  in `identityFromEntry`. -/
  | missingAttrs (dn : String) (missing : List String)
  /-- `"ldap: failed to query groups: %v"` in `Login` and `Refresh`. -/
  | queryGroups (e : Err)
  /-- `"ldap: failed to unamrshal internal data: %v"` in `Refresh`. -/
  | unmarshal (msg : String)
  /-- `"ldap: user not found %q"` in `Refresh`. -/
  | userNotFound (username : String)
  /-- `"ldap: refresh for username %q expected DN %q got %q"` in `Refresh`. -/
  | dnMismatch (username : String) (expected : String) (got : String)
  /-- `"ldap: search failed: %v"` in `groups`. -/
  | groupSearchFailed (msg : String)
  /-- `"ldap: group entity %q missing required attribute %q"` in `groups`. -/
  | groupMissingName (dn : String) (attr : String)

/-- A connection-level action performed by the connector.  `conn`
numbers the connection: each call of the connector's `do` helper dials
a fresh connection and gets a fresh number. -/
inductive Event where
  | dial (conn : Nat)
  | bind (conn : Nat) (dn : String) (password : String)
  | search (conn : Nat) (req : SearchRequest)
  | close (conn : Nat)
deriving DecidableEq

/-- The directory server and network as a deterministic oracle: the
outcome of dialing, of a bind as a given DN with a given password, and
of a search request.  Both user-level and service-account binds are
answered by `bind`; searches by `search` (an `Except.error` models a
transport/protocol failure of `conn.Search`). -/
structure Dir where
  dialErr : Option String
  bind : String → String → Option BindErr
  search : SearchRequest → Except String (List Entry)

/-- `ldap.ScopeSingleLevel`, a constant of the directory client library. -/
def ScopeSingleLevel : Nat := 1

/-- `ldap.ScopeWholeSubtree`, a constant of the directory client library. -/
def ScopeWholeSubtree : Nat := 2

/-- Embeds `parseScope` (ldap.go:125-135): `""` and `"sub"` resolve to
the whole-subtree scope, `"one"` to single-level, anything else to
`(0, false)`. -/
def parseScope (s : String) : Nat × Bool :=
  if s = "" ∨ s = "sub" then (ScopeWholeSubtree, true)
  else if s = "one" then (ScopeSingleLevel, true)
  else (0, false)

/-- The hexadecimal digit table used by the directory client library's
filter escaping (the library's `hex` constant). -/
def hexDigits : String := "0123456789abcdef"

/-- Modelled from the spec (§4.4: values "must be escaped per directory
filter syntax to prevent filter injection"): the escaping predicate of
`ldap.EscapeFilter` from the external directory client library (RFC
4515): parentheses, asterisk, backslash, NUL and non-ASCII are escaped. -/
def mustEscape (c : Char) : Bool :=
  c.toNat > 0x7f || c = '(' || c = ')' || c = '\\' || c = '*' || c.toNat = 0

/-- One character's escaped form under `ldap.EscapeFilter`: either the
character itself or a backslash followed by two hex digits.  The Go
function works on bytes; this character-level model coincides with it
on ASCII input. -/
def escapeChar (c : Char) : List Char :=
  if mustEscape c then
    ['\\', hexDigits.data.getD (c.toNat / 16) '0', hexDigits.data.getD (c.toNat % 16) '0']
  else [c]

/-- Modelled from the spec (§4.4): `ldap.EscapeFilter` of the external
directory client library, character by character. -/
def escapeFilter (s : String) : String :=
  String.mk (s.data.map escapeChar).flatten

/-- Value of a lowercase hexadecimal digit character, if it is one. -/
def hexVal (c : Char) : Option Nat :=
  if '0' ≤ c ∧ c ≤ '9' then some (c.toNat - '0'.toNat)
  else if 'a' ≤ c ∧ c ≤ 'f' then some (c.toNat - 'a'.toNat + 10)
  else none

/-- Decoding of one escape sequence of the directory filter grammar:
a backslash followed by two hex digits denotes the character with that
code, prepended to the decoding `k` of the remainder. -/
def unescEsc (h l : Char) (k : Option (List Char)) : Option (List Char) :=
  match hexVal h, hexVal l with
  | some hi, some lo => k.map (fun t => Char.ofNat (hi * 16 + lo) :: t)
  | _, _ => none

/-- Modelled from the spec (§4.4, §8 "no filter injection"): how a
directory server interprets the value part of an equality filter per
the directory filter grammar (RFC 4515).  Returns the literal string
the value denotes, or `none` when the value is not a single literal:
an unescaped parenthesis or asterisk (wildcard), or a malformed escape
sequence. -/
def unescapeValue : List Char → Option (List Char)
  | [] => some []
  | ['\\'] => none
  | ['\\', _] => none
  | '\\' :: h :: l :: rest2 => unescEsc h l (unescapeValue rest2)
  | c :: rest =>
    if c = '(' ∨ c = ')' ∨ c = '*' then none
    else (unescapeValue rest).map (fun t => c :: t)

/-- The `userSearch` sub-struct of `Config` (ldap.go:76-97). -/
structure UserSearchConfig where
  BaseDN : String
  Filter : String
  Username : String
  Scope : String
  IDAttr : String
  EmailAttr : String
  NameAttr : String
deriving DecidableEq

/-- The `groupSearch` sub-struct of `Config` (ldap.go:100-122). -/
structure GroupSearchConfig where
  BaseDN : String
  Filter : String
  Scope : String
  UserAttr : String
  GroupAttr : String
  NameAttr : String
deriving DecidableEq

/-- Embeds `Config` (ldap.go:53-123).  `RootCAData` is a byte slice in
the source; its contents are only ever handed to `x509` certificate
parsing, so bytes are modelled as `UInt8`. -/
structure Config where
  Host : String
  InsecureNoSSL : Bool
  InsecureSkipVerify : Bool
  RootCA : String
  RootCAData : List UInt8
  BindDN : String
  BindPW : String
  UserSearch : UserSearchConfig
  GroupSearch : GroupSearchConfig

/-- The parts of `crypto/tls.Config` the connector populates
(ldap.go:186-199).  `RootCAs` records whether a certificate pool was
installed. -/
structure TLSConfig where
  ServerName : String
  InsecureSkipVerify : Bool
  RootCAs : Bool

/-- The host-environment functions `OpenConnector` calls that live
outside this repository: `net.SplitHostPort` (`some (host, port)` on
success, `none` on error), `ioutil.ReadFile`, and
`x509.CertPool.AppendCertsFromPEM`. -/
structure Env where
  splitHostPort : String → Option (String × String)
  readFile : String → Except String (List UInt8)
  appendCertsFromPEM : List UInt8 → Bool

/-- Embeds `ldapConnector` (ldap.go:212-219): the validated config plus
the resolved scopes and TLS settings. -/
structure ldapConnector extends Config where
  userSearchScope : Nat
  groupSearchScope : Nat
  tlsConfig : TLSConfig

/-- The `requiredFields` loop of `OpenConnector` (ldap.go:158-171):
the first listed field whose value is empty, if any. -/
def firstMissing : List (String × String) → Option String
  | [] => none
  | (name, val) :: rest => if val = "" then some name else firstMissing rest

/-- The scope-resolution tail of `OpenConnector` (ldap.go:201-209):
resolve both configured scope strings, failing on an unknown value,
and assemble the connector.  (The source duplicates the
`userSearch.Scope` wording in the group-scope error message; so does
the model.) -/
def openScopes (c : Config) (tlsConfig : TLSConfig) : Except String ldapConnector :=
  match parseScope c.UserSearch.Scope with
  | (_, false) => .error ("userSearch.Scope unknown value " ++ c.UserSearch.Scope)
  | (userSearchScope, true) =>
    match parseScope c.GroupSearch.Scope with
    | (_, false) => .error ("userSearch.Scope unknown value " ++ c.GroupSearch.Scope)
    | (groupSearchScope, true) =>
      .ok { toConfig := c, userSearchScope := userSearchScope,
            groupSearchScope := groupSearchScope, tlsConfig := tlsConfig }

/-- Embeds `(*Config).OpenConnector` (ldap.go:152-210): required-field
validation, host/port normalization, TLS trust material handling, and
scope resolution.  All failures are returned before any directory
connection exists (`OpenConnector` performs no network I/O; the `Env`
oracle covers its only external effects: reading the CA file and
parsing host strings / certificates). -/
def OpenConnector (env : Env) (c : Config) : Except String ldapConnector :=
  match firstMissing
      [("host", c.Host),
       ("userSearch.baseDN", c.UserSearch.BaseDN),
       ("userSearch.username", c.UserSearch.Username)] with
  | some name => .error ("ldap: missing required field " ++ name)
  | none =>
    match (match env.splitHostPort c.Host with
           | some (h, _) => (h, c)
           | none =>
             (c.Host,
              { c with Host := c.Host ++ (if c.InsecureNoSSL then ":389" else ":636") })) with
    | (host, c) =>
      let base : TLSConfig :=
        { ServerName := host, InsecureSkipVerify := c.InsecureSkipVerify, RootCAs := false }
      match (if c.RootCA ≠ "" ∨ c.RootCAData ≠ [] then
               match (if c.RootCAData ≠ [] then Except.ok c.RootCAData
                      else env.readFile c.RootCA) with
               | .error e => Except.error ("ldap: read ca file: " ++ e)
               | .ok data =>
                 if env.appendCertsFromPEM data then Except.ok { base with RootCAs := true }
                 else Except.error "ldap: no certs found in ca file"
             else Except.ok base) with
      | .error e => .error e
      | .ok tlsConfig => openScopes c tlsConfig

/-- The loop of `getAttr` (ldap.go:254-262): the first attribute whose
name matches yields its first value (empty string when it has no
values); later attributes with the same name are never reached. -/
def getAttrLoop : List EntryAttribute → String → Option String
  | [], _ => none
  | a :: rest, name =>
    if a.Name = name then
      some (match a.Values with
            | [] => ""
            | v :: _ => v)
    else getAttrLoop rest name

/-- Embeds `getAttr` (ldap.go:253-267). -/
def getAttr (e : Entry) (name : String) : String :=
  match getAttrLoop e.Attributes name with
  | some v => v
  | none => if name = "DN" then e.DN else ""

/-- Embeds `(*ldapConnector).identityFromEntry` (ldap.go:269-292).
The `missing` list is accumulated in the source's push order; the
returned identity's `Username` is only set when a name attribute is
configured. -/
def identityFromEntry (c : ldapConnector) (user : Entry) : Except Err Identity :=
  let userID := getAttr user c.UserSearch.IDAttr
  let email := getAttr user c.UserSearch.EmailAttr
  let username := if c.UserSearch.NameAttr ≠ "" then getAttr user c.UserSearch.NameAttr else ""
  let missing :=
    (if userID = "" then [c.UserSearch.IDAttr] else []) ++
    (if email = "" then [c.UserSearch.EmailAttr] else []) ++
    (if c.UserSearch.NameAttr ≠ "" ∧ username = "" then [c.UserSearch.NameAttr] else [])
  if missing ≠ [] then .error (.missingAttrs user.DN missing)
  else .ok { UserID := userID, Username := username, Email := email,
             Groups := [], ConnectorData := none }

/-- The `missing` list of `identityFromEntry` as a standalone function
(the same expression the source accumulates), for stating lemmas. -/
def mL (c : ldapConnector) (user : Entry) : List String :=
  (if getAttr user c.UserSearch.IDAttr = "" then [c.UserSearch.IDAttr] else []) ++
  (if getAttr user c.UserSearch.EmailAttr = "" then [c.UserSearch.EmailAttr] else []) ++
  (if c.UserSearch.NameAttr ≠ "" ∧
      (if c.UserSearch.NameAttr ≠ "" then getAttr user c.UserSearch.NameAttr else "") = ""
   then [c.UserSearch.NameAttr] else [])

/-- The search request `userEntry` builds (ldap.go:296-317): the
username filter, intersected with the configured base filter when one
is present, and the attribute list restricted to the configured
id/email/group-link (and optional name) attributes. -/
def userSearchRequest (c : ldapConnector) (username : String) : SearchRequest :=
  let filter := "(" ++ c.UserSearch.Username ++ "=" ++ escapeFilter username ++ ")"
  let filter := if c.UserSearch.Filter ≠ "" then "(&" ++ c.UserSearch.Filter ++ filter ++ ")"
                else filter
  { BaseDN := c.UserSearch.BaseDN
    Filter := filter
    Scope := c.userSearchScope
    Attributes :=
      [c.UserSearch.IDAttr, c.UserSearch.EmailAttr, c.GroupSearch.UserAttr] ++
      (if c.UserSearch.NameAttr ≠ "" then [c.UserSearch.NameAttr] else []) }

/-- Embeds `(*ldapConnector).userEntry` (ldap.go:294-332) on an open
connection `cid`: run the user search, then dispatch on the number of
entries returned (`.ok (entry, found)` mirrors the Go return values
`(user, found, nil)`). -/
def userEntry (c : ldapConnector) (dir : Dir) (cid : Nat) (username : String) :
    Except Err (Entry × Bool) × List Event :=
  let req := userSearchRequest c username
  match dir.search req with
  | .error e => (.error (.searchFailed req.Filter e), [.search cid req])
  | .ok entries =>
    (match entries with
     | [] => .ok (Entry.zero, false)
     | [e] => .ok (e, true)
     | es => .error (.multipleResults es.length req.Filter),
     [.search cid req])

/-- Embeds `(*ldapConnector).do` (ldap.go:229-251): dial a fresh
connection (numbered `cid`), bind as the service account, run `f` on
the connection, and close it on every exit path after a successful
dial.  The transport choice (TLS or plain per configuration) is part
of the `Dir` oracle's dial outcome. -/
def doOp (c : ldapConnector) (dir : Dir) (cid : Nat)
    (f : Nat → Except Err α × List Event) : Except Err α × List Event :=
  match dir.dialErr with
  | some e => (.error (.connectFailed e), [.dial cid])
  | none =>
    match dir.bind c.BindDN c.BindPW with
    | some be =>
      (.error (.initialBind c.BindDN be),
       [.dial cid, .bind cid c.BindDN c.BindPW, .close cid])
    | none =>
      match f cid with
      | (res, ev) => (res, [.dial cid, .bind cid c.BindDN c.BindPW] ++ ev ++ [.close cid])

/-- Embeds `refreshData` (ldap.go:146-149), the struct serialized into
the identity's opaque connector data. -/
structure refreshData where
  Username : String
  Entry : Entry
deriving DecidableEq

/-- Modelled from the spec (§4.8, §6 "Opaque persisted state"):
`encoding/json` marshaling (Go standard library, not under `src/`) of
one `EntryAttribute`, using the struct's field names, as the source's
`json.Marshal(refresh)` produces it. -/
def marshalEntryAttribute (a : EntryAttribute) : Json :=
  .obj [("Name", .str a.Name), ("Values", .arr (a.Values.map Json.str))]

/-- Modelled from the spec (§4.8): `encoding/json` marshaling of an
`Entry`, using the struct's field names. -/
def marshalEntry (e : Entry) : Json :=
  .obj [("DN", .str e.DN), ("Attributes", .arr (e.Attributes.map marshalEntryAttribute))]

/-- Modelled from the spec (§4.8): `encoding/json` marshaling of
`refreshData`, using its `json:"username"` / `json:"entry"` tags.
`json.Marshal` cannot fail on this type, so the encoder is total. -/
def marshalRefreshData (d : refreshData) : Json :=
  .obj [("username", .str d.Username), ("entry", marshalEntry d.Entry)]

/-- Field lookup in a JSON object (first match, as `encoding/json`
keeps one value per field). -/
def jsonField (fields : List (String × Json)) (name : String) : Option Json :=
  (fields.find? (fun p => p.1 = name)).map (fun p => p.2)

/-- Modelled from the spec (§4.8): `encoding/json` unmarshaling of a
string-typed field; an absent or null field leaves the zero value. -/
def decodeStringField : Option Json → Except String String
  | none => .ok ""
  | some .null => .ok ""
  | some (.str s) => .ok s
  | some _ => .error "json: cannot unmarshal value into field of type string"

/-- Modelled from the spec (§4.8): `encoding/json` unmarshaling of a
`[]string` field. -/
def decodeStringList : Option Json → Except String (List String)
  | none => .ok []
  | some .null => .ok []
  | some (.arr xs) =>
    xs.mapM (fun j =>
      match j with
      | .str s => Except.ok s
      | _ => Except.error "json: cannot unmarshal value into field of type string")
  | some _ => .error "json: cannot unmarshal value into field of type []string"

/-- Modelled from the spec (§4.8): `encoding/json` unmarshaling of one
`EntryAttribute`. -/
def decodeEntryAttribute (j : Json) : Except String EntryAttribute :=
  match j with
  | .obj fs => do
    let name ← decodeStringField (jsonField fs "Name")
    let values ← decodeStringList (jsonField fs "Values")
    .ok { Name := name, Values := values }
  | _ => .error "json: cannot unmarshal value into EntryAttribute"

/-- Modelled from the spec (§4.8): `encoding/json` unmarshaling of an
`Entry`. -/
def decodeEntry : Option Json → Except String Entry
  | none => .ok Entry.zero
  | some .null => .ok Entry.zero
  | some (.obj fs) => do
    let dn ← decodeStringField (jsonField fs "DN")
    let attrs ← (match jsonField fs "Attributes" with
                 | none => Except.ok []
                 | some .null => Except.ok []
                 | some (.arr xs) => xs.mapM decodeEntryAttribute
                 | some _ => Except.error "json: cannot unmarshal value into []*EntryAttribute")
    .ok { DN := dn, Attributes := attrs }
  | some _ => .error "json: cannot unmarshal value into Entry"

/-- Modelled from the spec (§4.8): the source's
`json.Unmarshal(ident.ConnectorData, &data)` for `refreshData`.
`none` models a nil/empty byte slice, on which `json.Unmarshal` fails
with `"unexpected end of JSON input"`. -/
def unmarshalRefreshData : Option Json → Except String refreshData
  | none => .error "unexpected end of JSON input"
  | some (.obj fs) => do
    let username ← decodeStringField (jsonField fs "username")
    let entry ← decodeEntry (jsonField fs "entry")
    .ok { Username := username, Entry := entry }
  | some .null => .ok { Username := "", Entry := Entry.zero }
  | some _ => .error "json: cannot unmarshal value into refreshData"

/-- The search request `groups` builds (ldap.go:443-453): the
group-link filter from the user entry's link attribute value,
intersected with the configured base filter when one is present. -/
def groupsSearchRequest (c : ldapConnector) (user : Entry) : SearchRequest :=
  let filter := "(" ++ c.GroupSearch.GroupAttr ++ "=" ++
    escapeFilter (getAttr user c.GroupSearch.UserAttr) ++ ")"
  let filter := if c.GroupSearch.Filter ≠ "" then "(&" ++ c.GroupSearch.Filter ++ filter ++ ")"
                else filter
  { BaseDN := c.GroupSearch.BaseDN
    Filter := filter
    Scope := c.groupSearchScope
    Attributes := [c.GroupSearch.NameAttr] }

/-- The name-extraction loop of `groups` (ldap.go:471-485): the first
group entry whose name attribute resolves to empty aborts the whole
resolution; otherwise the names are collected in response order. -/
def groupNamesOf (c : ldapConnector) : List Entry → Except Err (List String)
  | [] => .ok []
  | g :: rest =>
    if getAttr g c.GroupSearch.NameAttr = "" then
      .error (.groupMissingName g.DN c.GroupSearch.NameAttr)
    else
      match groupNamesOf c rest with
      | .error e => .error e
      | .ok names => .ok (getAttr g c.GroupSearch.NameAttr :: names)

/-- Embeds `(*ldapConnector).groups` (ldap.go:442-487): run the group
search on its own fresh connection `cid`, then extract the name
attribute of every returned entry. -/
def groups (c : ldapConnector) (dir : Dir) (cid : Nat) (user : Entry) :
    Except Err (List String) × List Event :=
  let req := groupsSearchRequest c user
  match doOp c dir cid (fun cid2 =>
      match dir.search req with
      | .error e => (.error (.groupSearchFailed e), [.search cid2 req])
      | .ok entries => (.ok entries, [.search cid2 req])) with
  | (.error e, ev) => (.error e, ev)
  | (.ok entries, ev) =>
    match groupNamesOf c entries with
    | .error e => (.error e, ev)
    | .ok names => (.ok names, ev)

/-- The closure `Login` passes to `do` (ldap.go:342-366): user lookup,
then the credential bind as the found entry's DN.  `.ok none` mirrors
`incorrectPass = true` (user not found, or bind rejected with the
invalid-credentials result code); `.ok (some entry)` mirrors a
successful credential bind. -/
def loginInner (c : ldapConnector) (dir : Dir) (username password : String) (cid : Nat) :
    Except Err (Option Entry) × List Event :=
  match userEntry c dir cid username with
  | (.error e, ev) => (.error e, ev)
  | (.ok (entry, found), ev) =>
    if found = false then (.ok none, ev)
    else
      match dir.bind entry.DN password with
      | none => (.ok (some entry), ev ++ [.bind cid entry.DN password])
      | some be =>
        if bindInvalidCred be then (.ok none, ev ++ [.bind cid entry.DN password])
        else (.error (.bindFailed entry.DN be), ev ++ [.bind cid entry.DN password])

/-- The `s.OfflineAccess` tail of `Login` (ldap.go:386-396): encode the
refresh state into the identity's connector data.  `json.Marshal`
cannot fail on `refreshData`, so no error path exists in the model. -/
def withOffline (ident : Identity) (s : Scopes) (username : String) (user : Entry) : Identity :=
  if s.OfflineAccess then
    { ident with ConnectorData := some (marshalRefreshData { Username := username, Entry := user }) }
  else ident

/-- Embeds `(*ldapConnector).Login` (ldap.go:334-399).  The result
mirrors the Go return triple `(ident, validPass, err)`; the second
component of the pair is the connection event trace (the user-lookup
connection is numbered 0, the group-search connection 1). -/
def Login (c : ldapConnector) (dir : Dir) (s : Scopes) (username password : String) :
    (Identity × Bool × Option Err) × List Event :=
  match doOp c dir 0 (loginInner c dir username password) with
  | (.error e, ev) => ((Identity.zero, false, some e), ev)
  | (.ok none, ev) => ((Identity.zero, false, none), ev)
  | (.ok (some user), ev) =>
    match identityFromEntry c user with
    | .error e => ((Identity.zero, false, some e), ev)
    | .ok ident =>
      if s.Groups then
        match groups c dir 1 user with
        | (.error e, ev2) => ((Identity.zero, false, some (.queryGroups e)), ev ++ ev2)
        | (.ok gs, ev2) =>
          ((withOffline { ident with Groups := gs } s username user, true, none), ev ++ ev2)
      else ((withOffline ident s username user, true, none), ev)

/-- Embeds `(*ldapConnector).Refresh` (ldap.go:401-440).  The result
mirrors the Go return pair `(Identity, error)` plus the connection
event trace. -/
def Refresh (c : ldapConnector) (dir : Dir) (s : Scopes) (ident : Identity) :
    (Identity × Option Err) × List Event :=
  match unmarshalRefreshData ident.ConnectorData with
  | .error e => ((ident, some (.unmarshal e)), [])
  | .ok data =>
    match doOp c dir 0 (fun cid =>
        match userEntry c dir cid data.Username with
        | (.error e, ev) => (.error e, ev)
        | (.ok (entry, found), ev) =>
          if found = false then (.error (.userNotFound data.Username), ev)
          else (.ok entry, ev)) with
    | (.error e, ev) => ((ident, some e), ev)
    | (.ok user, ev) =>
      if user.DN ≠ data.Entry.DN then
        ((ident, some (.dnMismatch data.Username data.Entry.DN user.DN)), ev)
      else
        match identityFromEntry c user with
        | .error e => ((ident, some e), ev)
        | .ok newIdent0 =>
          let newIdent := { newIdent0 with ConnectorData := ident.ConnectorData }
          if s.Groups then
            match groups c dir 1 user with
            | (.error e, ev2) => ((Identity.zero, some (.queryGroups e)), ev ++ ev2)
            | (.ok gs, ev2) => (({ newIdent with Groups := gs }, none), ev ++ ev2)
          else ((newIdent, none), ev)

/-! ## Concrete test fixtures used by witnesses and counterexamples -/

/-- A concrete validated connector configuration. -/
def conA : ldapConnector :=
  { Host := "ldap.example:636"
    InsecureNoSSL := false
    InsecureSkipVerify := false
    RootCA := ""
    RootCAData := []
    BindDN := "cn=svc"
    BindPW := "svcpw"
    UserSearch :=
      { BaseDN := "dc=example", Filter := "", Username := "uid", Scope := ""
        IDAttr := "uid", EmailAttr := "mail", NameAttr := "" }
    GroupSearch :=
      { BaseDN := "ou=groups", Filter := "", Scope := ""
        UserAttr := "uid", GroupAttr := "member", NameAttr := "name" }
    userSearchScope := ScopeWholeSubtree
    groupSearchScope := ScopeWholeSubtree
    tlsConfig := { ServerName := "ldap.example", InsecureSkipVerify := false, RootCAs := false } }

/-- A concrete user entry. -/
def entryJdoe : Entry :=
  { DN := "cn=jdoe,dc=example"
    Attributes := [{ Name := "uid", Values := ["jdoe"] },
                   { Name := "mail", Values := ["jdoe@example.com"] }] }

/-- A directory in which every dial and bind succeeds and every search
returns no entries. -/
def dirEmpty : Dir :=
  { dialErr := none
    bind := fun _ _ => none
    search := fun _ => .ok [] }

/-- A directory holding exactly `entryJdoe`, whose password is
`"goodpw"`; the service account (and any other DN) binds successfully. -/
def dirHappy : Dir :=
  { dialErr := none
    bind := fun dn pw =>
      if dn = "cn=jdoe,dc=example" then
        if pw = "goodpw" then none else some (.ldapErr LDAPResultInvalidCredentials)
      else none
    search := fun req =>
      if req = userSearchRequest conA "jdoe" then .ok [entryJdoe] else .ok [] }

/-- A directory in which the user `jdoe` is found under a different
distinguished name than `entryJdoe` caches. -/
def dirMoved : Dir :=
  { dialErr := none
    bind := fun _ _ => none
    search := fun req =>
      if req = userSearchRequest conA "jdoe" then
        .ok [{ entryJdoe with DN := "cn=jdoe,ou=people,dc=example" }]
      else .ok [] }

/-- An identity carrying valid refresh state for `entryJdoe`. -/
def identJdoe : Identity :=
  { UserID := "jdoe", Username := "", Email := "jdoe@example.com", Groups := []
    ConnectorData := some (marshalRefreshData { Username := "jdoe", Entry := entryJdoe }) }

/-- A non-zero identity with no connector data (decode of its opaque
state fails). -/
def identNoData : Identity :=
  { UserID := "someone", Username := "", Email := "someone@example.com", Groups := []
    ConnectorData := none }

/-- A concrete group entry with a valid name attribute. -/
def groupAdmins : Entry :=
  { DN := "cn=admins,ou=groups", Attributes := [{ Name := "name", Values := ["admins"] }] }

/-- A second concrete group entry with a valid name attribute. -/
def groupDevs : Entry :=
  { DN := "cn=devs,ou=groups", Attributes := [{ Name := "name", Values := ["devs"] }] }

/-- A directory in which `entryJdoe` belongs to two groups. -/
def dirGroups : Dir :=
  { dialErr := none
    bind := fun _ _ => none
    search := fun req =>
      if req = groupsSearchRequest conA entryJdoe then .ok [groupAdmins, groupDevs]
      else .ok [] }

/-- A trivial environment for `OpenConnector` witnesses. -/
def envA : Env :=
  { splitHostPort := fun _ => none
    readFile := fun _ => .error "no such file"
    appendCertsFromPEM := fun _ => false }

/-- `conA`'s configuration with an unknown user-search scope string. -/
def cfgBadScope : Config :=
  { conA.toConfig with UserSearch := { conA.toConfig.UserSearch with Scope := "base" } }

/-! ## Helper lemmas -/

/-- Attributes whose name does not match are skipped by the
`getAttr` loop. -/
theorem getAttrLoop_append_skip (name : String) :
    ∀ (pre : List EntryAttribute), (∀ b ∈ pre, b.Name ≠ name) →
    ∀ l, getAttrLoop (pre ++ l) name = getAttrLoop l name := by
  intro pre
  induction pre with
  | nil => intro _ l; rfl
  | cons b rest ih =>
    intro h l
    have hb : b.Name ≠ name := h b (by simp)
    simp only [List.cons_append, getAttrLoop, if_neg hb]
    exact ih (fun x hx => h x (by simp [hx])) l

/-- The `getAttr` loop finds nothing when no attribute has the name. -/
theorem getAttrLoop_none (name : String) (l : List EntryAttribute)
    (h : ∀ b ∈ l, b.Name ≠ name) : getAttrLoop l name = none := by
  have := getAttrLoop_append_skip name l h []
  simpa using this

/-- Hex digit lookup inverts the hex digit table. -/
theorem hexVal_getD (n : Nat) (hn : n < 16) : hexVal (hexDigits.data.getD n '0') = some n := by
  interval_cases n <;> rfl

/-- Unfolding of `unescapeValue` on a plain (non-backslash) head
character. -/
theorem unescapeValue_cons_plain (c : Char) (rest : List Char) (hbs : c ≠ '\\')
    (hpar : ¬(c = '(' ∨ c = ')' ∨ c = '*')) :
    unescapeValue (c :: rest) = (unescapeValue rest).map (fun t => c :: t) := by
  cases rest with
  | nil => simp [unescapeValue, hbs, hpar]
  | cons d t =>
    cases t with
    | nil => simp [unescapeValue, hbs, hpar]
    | cons d2 t2 => simp [unescapeValue, hbs, hpar]

/-- Character-level round trip of filter-value escaping: a directory
server interpreting the escaped value per the filter grammar recovers
exactly the original characters. -/
theorem unescape_escape_chars :
    ∀ (l : List Char), (∀ ch ∈ l, ch.toNat < 128) →
    unescapeValue (l.map escapeChar).flatten = some l := by
  intro l
  induction l with
  | nil => intro _; rfl
  | cons c t ih =>
    intro h
    have hc : c.toNat < 128 := h c (by simp)
    have ht : ∀ ch ∈ t, ch.toNat < 128 := fun x hx => h x (by simp [hx])
    by_cases hm : mustEscape c
    · simp only [List.map_cons, List.flatten_cons, escapeChar, if_pos hm, List.cons_append,
        List.nil_append]
      show unescEsc _ _ (unescapeValue (t.map escapeChar).flatten) = some (c :: t)
      rw [ih ht]
      simp only [unescEsc]
      rw [hexVal_getD (c.toNat / 16) (by omega), hexVal_getD (c.toNat % 16) (by omega)]
      have hdm : c.toNat / 16 * 16 + c.toNat % 16 = c.toNat := by omega
      simp [hdm, Char.ofNat_toNat]
    · simp only [List.map_cons, List.flatten_cons, escapeChar, if_neg hm, List.cons_append,
        List.nil_append]
      have hbs : c ≠ '\\' := by
        intro e
        apply hm
        simp [mustEscape, e]
      have hpar : ¬(c = '(' ∨ c = ')' ∨ c = '*') := by
        intro hor
        apply hm
        rcases hor with h1 | h1 | h1 <;> simp [mustEscape, h1]
      rw [unescapeValue_cons_plain c _ hbs hpar, ih ht]
      rfl

/-- Group-name extraction succeeds and returns the names in order when
every returned entry resolves the name attribute to a non-empty value. -/
theorem groupNamesOf_ok (c : ldapConnector) :
    ∀ (gs : List Entry), (∀ g ∈ gs, getAttr g c.GroupSearch.NameAttr ≠ "") →
    groupNamesOf c gs = .ok (gs.map (fun g => getAttr g c.GroupSearch.NameAttr)) := by
  intro gs
  induction gs with
  | nil => intro _; rfl
  | cons g t ih =>
    intro h
    have hg : getAttr g c.GroupSearch.NameAttr ≠ "" := h g (by simp)
    have ht : ∀ x ∈ t, getAttr x c.GroupSearch.NameAttr ≠ "" := fun x hx => h x (by simp [hx])
    simp [groupNamesOf, hg, ih ht]

/-- Group-name extraction fails when some returned entry resolves the
name attribute to empty. -/
theorem groupNamesOf_err (c : ldapConnector) :
    ∀ (gs : List Entry), (∃ g ∈ gs, getAttr g c.GroupSearch.NameAttr = "") →
    ∃ e, groupNamesOf c gs = .error e := by
  intro gs
  induction gs with
  | nil => intro h; simp at h
  | cons g t ih =>
    intro h
    by_cases hg : getAttr g c.GroupSearch.NameAttr = ""
    · exact ⟨.groupMissingName g.DN c.GroupSearch.NameAttr, by simp [groupNamesOf, hg]⟩
    · rcases h with ⟨x, hx, hxe⟩
      rw [List.mem_cons] at hx
      rcases hx with rfl | hx
      · exact absurd hxe hg
      · rcases ih ⟨x, hx, hxe⟩ with ⟨e, he⟩
        exact ⟨e, by simp [groupNamesOf, hg, he]⟩

/-- Mapping an encoder over a list and decoding elementwise recovers
the list, provided each element round-trips. -/
theorem mapM_map_ok {α β : Type} (g : α → β) (f : β → Except String α) :
    ∀ (xs : List α), (∀ x ∈ xs, f (g x) = .ok x) → (xs.map g).mapM f = .ok xs := by
  intro xs
  induction xs with
  | nil => intro _; rfl
  | cons x t ih =>
    intro h
    have hx := h x (by simp)
    have ht : ∀ y ∈ t, f (g y) = Except.ok y := fun y hy => h y (by simp [hy])
    rw [List.map_cons, List.mapM_cons, hx, ih ht]
    rfl

/-- One attribute survives the JSON encode/decode round trip. -/
theorem decodeEntryAttribute_marshal (a : EntryAttribute) :
    decodeEntryAttribute (marshalEntryAttribute a) = .ok a := by
  have hv : decodeStringList (some (.arr (a.Values.map Json.str))) = .ok a.Values := by
    simp only [decodeStringList]
    exact mapM_map_ok Json.str _ a.Values (fun x _ => rfl)
  cases a with
  | mk name values =>
    simp only [marshalEntryAttribute, decodeEntryAttribute, jsonField, List.find?] at *
    simp [decodeStringField, hv]
    rfl

/-- An entry survives the JSON encode/decode round trip. -/
theorem decodeEntry_marshal (e : Entry) :
    decodeEntry (some (marshalEntry e)) = .ok e := by
  have ha : (e.Attributes.map marshalEntryAttribute).mapM decodeEntryAttribute = .ok e.Attributes :=
    mapM_map_ok marshalEntryAttribute decodeEntryAttribute e.Attributes
      (fun x _ => decodeEntryAttribute_marshal x)
  cases e with
  | mk dn attrs =>
    simp only [marshalEntry, decodeEntry, jsonField, List.find?] at *
    simp [decodeStringField]
    rw [show List.mapM.loop decodeEntryAttribute (List.map marshalEntryAttribute attrs) [] =
      Except.ok attrs from ha]
    rfl

/-! ## Claim theorems -/

/-- Claim C7: encoding the refresh state (username and cached entry)
and then decoding the resulting document reproduces exactly the
original username and entry: the refresh-state codec round-trips. -/
theorem claim_C7 (d : refreshData) :
    unmarshalRefreshData (some (marshalRefreshData d)) = .ok d := by
  cases d with
  | mk username entry =>
    have he : decodeEntry (some (marshalEntry entry)) = .ok entry := decodeEntry_marshal entry
    simp only [marshalRefreshData, unmarshalRefreshData, jsonField, List.find?]
    simp [decodeStringField, he]
    rfl

/-- Claim C9: `getAttr` returns the first value of the first attribute
with the requested name; it returns the empty string when no attribute
has that name (and the name is not `"DN"`); and it falls back to the
entry's distinguished name for the name `"DN"` only when no literal
attribute named `"DN"` exists — when one exists, the result is
determined by that attribute alone. -/
theorem claim_C9 (e : Entry) (name : String) :
    (∀ pre a post, e.Attributes = pre ++ a :: post → (∀ b ∈ pre, b.Name ≠ name) →
      a.Name = name → ∀ v vs, a.Values = v :: vs → getAttr e name = v)
    ∧ ((∀ a ∈ e.Attributes, a.Name ≠ name) → name ≠ "DN" → getAttr e name = "")
    ∧ ((∀ a ∈ e.Attributes, a.Name ≠ "DN") → getAttr e "DN" = e.DN)
    ∧ (∀ pre a post, e.Attributes = pre ++ a :: post → (∀ b ∈ pre, b.Name ≠ "DN") →
      a.Name = "DN" → getAttr e "DN" = a.Values.headD "") := by
  refine ⟨?_, ?_, ?_, ?_⟩
  · intro pre a post hsplit hpre ha v vs hv
    unfold getAttr
    rw [hsplit, getAttrLoop_append_skip name pre hpre]
    simp [getAttrLoop, ha, hv]
  · intro hnone hdn
    unfold getAttr
    rw [getAttrLoop_none name e.Attributes hnone]
    simp [hdn]
  · intro hnone
    unfold getAttr
    rw [getAttrLoop_none "DN" e.Attributes hnone]
    simp
  · intro pre a post hsplit hpre ha
    unfold getAttr
    rw [hsplit, getAttrLoop_append_skip "DN" pre hpre]
    cases hv : a.Values with
    | nil => simp [getAttrLoop, ha, hv]
    | cons v vs => simp [getAttrLoop, ha, hv]

/-- When either configured scope string fails `parseScope`, the
scope-resolution tail of `OpenConnector` returns an error. -/
theorem openScopes_err (c : Config) (tls : TLSConfig)
    (h : (parseScope c.UserSearch.Scope).2 = false ∨ (parseScope c.GroupSearch.Scope).2 = false) :
    ∃ e, openScopes c tls = .error e := by
  unfold openScopes
  rcases hu : parseScope c.UserSearch.Scope with ⟨us, ub⟩
  cases ub
  · exact ⟨_, rfl⟩
  · rcases hg : parseScope c.GroupSearch.Scope with ⟨gs, gb⟩
    cases gb
    · exact ⟨_, rfl⟩
    · rw [hu, hg] at h
      simp at h

/-- Claim C6: the scope strings `""` and `"sub"` resolve to the
whole-subtree scope and `"one"` to the single-level scope; every other
scope string fails `parseScope`, and a configuration whose user-search
or group-search scope fails `parseScope` makes `OpenConnector` return
an error (construction fails before any directory operation: the model
of `OpenConnector` has no access to a directory at all). -/
theorem claim_C6 :
    parseScope "" = (ScopeWholeSubtree, true) ∧
    parseScope "sub" = (ScopeWholeSubtree, true) ∧
    parseScope "one" = (ScopeSingleLevel, true) ∧
    (∀ s, s ≠ "" → s ≠ "sub" → s ≠ "one" → parseScope s = (0, false)) ∧
    (∀ (env : Env) (c : Config),
      (parseScope c.UserSearch.Scope).2 = false ∨ (parseScope c.GroupSearch.Scope).2 = false →
      ∃ e, OpenConnector env c = .error e) := by
  refine ⟨rfl, rfl, rfl, ?_, ?_⟩
  · intro s h1 h2 h3
    simp [parseScope, h1, h2, h3]
  · intro env c h
    unfold OpenConnector
    cases hfm : firstMissing
        [("host", c.Host),
         ("userSearch.baseDN", c.UserSearch.BaseDN),
         ("userSearch.username", c.UserSearch.Username)] with
    | some name => simp only [hfm]; exact ⟨_, rfl⟩
    | none =>
      simp only [hfm]
      cases hsp : env.splitHostPort c.Host with
      | none =>
        simp only [hsp]
        split
        · exact ⟨_, rfl⟩
        · exact openScopes_err _ _ h
      | some hp =>
        simp only [hsp]
        split
        · exact ⟨_, rfl⟩
        · exact openScopes_err _ _ h

/-- Claim C5: the user-search filter is the username-attribute equality
clause over the escaped username, AND-composed with the configured base
filter when one is present; the group filter is built the same way from
the escaped group-link value; and escaping makes any username match
only literally: a server interpreting the escaped value per the filter
grammar recovers exactly the original (ASCII) string, with no live
metacharacters. -/
theorem claim_C5 (c : ldapConnector) (username : String) (user : Entry) :
    ((c.UserSearch.Filter = "" →
        (userSearchRequest c username).Filter =
          "(" ++ c.UserSearch.Username ++ "=" ++ escapeFilter username ++ ")") ∧
     (c.UserSearch.Filter ≠ "" →
        (userSearchRequest c username).Filter =
          "(&" ++ c.UserSearch.Filter ++
            ("(" ++ c.UserSearch.Username ++ "=" ++ escapeFilter username ++ ")") ++ ")") ∧
     (c.GroupSearch.Filter = "" →
        (groupsSearchRequest c user).Filter =
          "(" ++ c.GroupSearch.GroupAttr ++ "=" ++
            escapeFilter (getAttr user c.GroupSearch.UserAttr) ++ ")") ∧
     (c.GroupSearch.Filter ≠ "" →
        (groupsSearchRequest c user).Filter =
          "(&" ++ c.GroupSearch.Filter ++
            ("(" ++ c.GroupSearch.GroupAttr ++ "=" ++
              escapeFilter (getAttr user c.GroupSearch.UserAttr) ++ ")") ++ ")")) ∧
    (∀ v : String, (∀ ch ∈ v.data, ch.toNat < 128) →
      unescapeValue (escapeFilter v).data = some v.data) := by
  refine ⟨⟨?_, ?_, ?_, ?_⟩, ?_⟩
  · intro h
    simp [userSearchRequest, h]
  · intro h
    simp [userSearchRequest, h]
  · intro h
    simp [groupsSearchRequest, h]
  · intro h
    simp [groupsSearchRequest, h]
  · intro v hv
    have : (escapeFilter v).data = (v.data.map escapeChar).flatten := rfl
    rw [this]
    exact unescape_escape_chars v.data hv

/-- Unfolding of `identityFromEntry` through the `missing` list. -/
theorem identityFromEntry_eq (c : ldapConnector) (user : Entry) :
    identityFromEntry c user =
      if mL c user ≠ [] then .error (.missingAttrs user.DN (mL c user))
      else .ok { UserID := getAttr user c.UserSearch.IDAttr,
                 Username := if c.UserSearch.NameAttr ≠ "" then
                     getAttr user c.UserSearch.NameAttr else "",
                 Email := getAttr user c.UserSearch.EmailAttr,
                 Groups := [], ConnectorData := none } := rfl

/-- The `missing` list is empty exactly when every configured required
attribute resolves to a non-empty value. -/
theorem mL_nil_iff (c : ldapConnector) (user : Entry) :
    mL c user = [] ↔
      (getAttr user c.UserSearch.IDAttr ≠ "" ∧ getAttr user c.UserSearch.EmailAttr ≠ "" ∧
       (c.UserSearch.NameAttr ≠ "" → getAttr user c.UserSearch.NameAttr ≠ "")) := by
  by_cases h1 : getAttr user c.UserSearch.IDAttr = "" <;>
  by_cases h2 : getAttr user c.UserSearch.EmailAttr = "" <;>
  by_cases h3 : c.UserSearch.NameAttr = "" <;>
  by_cases h4 : getAttr user c.UserSearch.NameAttr = "" <;>
  simp [mL, h1, h2, h3, h4]

/-- Membership in the `missing` list characterizes exactly the
configured attributes that resolved to empty. -/
theorem mL_mem_iff (c : ldapConnector) (user : Entry) (a : String) :
    a ∈ mL c user ↔
      ((a = c.UserSearch.IDAttr ∧ getAttr user c.UserSearch.IDAttr = "") ∨
       (a = c.UserSearch.EmailAttr ∧ getAttr user c.UserSearch.EmailAttr = "") ∨
       (a = c.UserSearch.NameAttr ∧ c.UserSearch.NameAttr ≠ "" ∧
        getAttr user c.UserSearch.NameAttr = "")) := by
  by_cases h1 : getAttr user c.UserSearch.IDAttr = "" <;>
  by_cases h2 : getAttr user c.UserSearch.EmailAttr = "" <;>
  by_cases h3 : c.UserSearch.NameAttr = "" <;>
  by_cases h4 : getAttr user c.UserSearch.NameAttr = "" <;>
  simp [mL, h1, h2, h3, h4]

/-- Claim C3: `identityFromEntry` succeeds exactly when the configured
id attribute, email attribute, and (when configured) name attribute all
resolve to non-empty values on the entry; on failure, the error carries
the entry's DN and the `missing` list contains precisely the names of
every configured attribute that resolved to empty, not just the first. -/
theorem claim_C3 (c : ldapConnector) (user : Entry) :
    ((∃ i, identityFromEntry c user = .ok i) ↔
      (getAttr user c.UserSearch.IDAttr ≠ "" ∧ getAttr user c.UserSearch.EmailAttr ≠ "" ∧
       (c.UserSearch.NameAttr ≠ "" → getAttr user c.UserSearch.NameAttr ≠ "")))
    ∧ (∀ dn m, identityFromEntry c user = .error (.missingAttrs dn m) →
        dn = user.DN ∧
        ∀ a, a ∈ m ↔
          ((a = c.UserSearch.IDAttr ∧ getAttr user c.UserSearch.IDAttr = "") ∨
           (a = c.UserSearch.EmailAttr ∧ getAttr user c.UserSearch.EmailAttr = "") ∨
           (a = c.UserSearch.NameAttr ∧ c.UserSearch.NameAttr ≠ "" ∧
            getAttr user c.UserSearch.NameAttr = ""))) := by
  constructor
  · constructor
    · rintro ⟨i, hi⟩
      rw [identityFromEntry_eq] at hi
      by_cases hm : mL c user = []
      · exact (mL_nil_iff c user).mp hm
      · rw [if_pos hm] at hi
        exact absurd hi (by simp)
    · intro hattrs
      have hm : mL c user = [] := (mL_nil_iff c user).mpr hattrs
      rw [identityFromEntry_eq, if_neg (fun h => h hm)]
      exact ⟨_, rfl⟩
  · intro dn m hmm
    rw [identityFromEntry_eq] at hmm
    by_cases hm : mL c user = []
    · rw [if_neg (fun h => h hm)] at hmm
      exact absurd hmm (by simp)
    · rw [if_pos hm] at hmm
      injection hmm with h
      injection h with hdn hlist
      subst hdn
      refine ⟨rfl, fun a => ?_⟩
      rw [← hlist]
      exact mL_mem_iff c user a

/-- Claim C4: with a reachable directory, if the group search returns
entries among which some entry resolves the configured group name
attribute to empty, the whole group resolution fails with an error (no
partial list); zero returned entries yield success with the empty list;
and otherwise the result is exactly the name-attribute values of the
returned entries in directory response order. -/
theorem claim_C4 (c : ldapConnector) (dir : Dir) (cid : Nat) (user : Entry) (gs : List Entry)
    (hdial : dir.dialErr = none) (hbind : dir.bind c.BindDN c.BindPW = none)
    (hsearch : dir.search (groupsSearchRequest c user) = .ok gs) :
    ((∃ g ∈ gs, getAttr g c.GroupSearch.NameAttr = "") →
      ∃ e, (groups c dir cid user).1 = .error e)
    ∧ (gs = [] → (groups c dir cid user).1 = .ok [])
    ∧ ((∀ g ∈ gs, getAttr g c.GroupSearch.NameAttr ≠ "") →
      (groups c dir cid user).1 = .ok (gs.map (fun g => getAttr g c.GroupSearch.NameAttr))) := by
  refine ⟨?_, ?_, ?_⟩
  · intro hbad
    rcases groupNamesOf_err c gs hbad with ⟨e, he⟩
    exact ⟨e, by simp [groups, doOp, hdial, hbind, hsearch, he]⟩
  · intro hnil
    subst hnil
    simp [groups, doOp, hdial, hbind, hsearch, groupNamesOf]
  · intro hgood
    simp [groups, doOp, hdial, hbind, hsearch, groupNamesOf_ok c gs hgood]

/-- Claim C1: with a reachable directory (dial and service bind
succeed), Login treats an empty user-search result, and a credential
bind rejected with the invalid-credentials result code, as
authentication failures (zero identity, `validPass = false`, nil
error); a multi-entry search result and any other credential-bind
failure are hard errors; and those two authentication-failure cases
are the only way Login returns `validPass = false` with a nil error. -/
theorem claim_C1 (c : ldapConnector) (dir : Dir) (s : Scopes) (username password : String)
    (hdial : dir.dialErr = none) (hbind : dir.bind c.BindDN c.BindPW = none) :
    (dir.search (userSearchRequest c username) = .ok [] →
      (Login c dir s username password).1 = (Identity.zero, false, none))
    ∧ (∀ e, dir.search (userSearchRequest c username) = .ok [e] →
        dir.bind e.DN password = some (.ldapErr LDAPResultInvalidCredentials) →
        (Login c dir s username password).1 = (Identity.zero, false, none))
    ∧ (∀ e1 e2 rest, dir.search (userSearchRequest c username) = .ok (e1 :: e2 :: rest) →
        ∃ err, (Login c dir s username password).1.2.2 = some err)
    ∧ (∀ e be, dir.search (userSearchRequest c username) = .ok [e] →
        dir.bind e.DN password = some be → bindInvalidCred be = false →
        ∃ err, (Login c dir s username password).1.2.2 = some err)
    ∧ ((Login c dir s username password).1.2.1 = false →
       (Login c dir s username password).1.2.2 = none →
        dir.search (userSearchRequest c username) = .ok [] ∨
        ∃ e, dir.search (userSearchRequest c username) = .ok [e] ∧
          ∃ be, dir.bind e.DN password = some be ∧ bindInvalidCred be = true) := by
  refine ⟨?_, ?_, ?_, ?_, ?_⟩
  · intro hs
    simp [Login, doOp, loginInner, userEntry, hdial, hbind, hs]
  · intro e hs hb
    simp [Login, doOp, loginInner, userEntry, hdial, hbind, hs, hb, bindInvalidCred]
  · intro e1 e2 rest hs
    simp [Login, doOp, loginInner, userEntry, hdial, hbind, hs]
  · intro e be hs hb hbic
    simp [Login, doOp, loginInner, userEntry, hdial, hbind, hs, hb, hbic]
  · intro hfalse hnone
    rcases hs : dir.search (userSearchRequest c username) with msg | gs
    · simp [Login, doOp, loginInner, userEntry, hdial, hbind, hs] at hnone
    · cases gs with
      | nil => exact Or.inl rfl
      | cons e gs2 =>
        cases gs2 with
        | cons e2 rest =>
          simp [Login, doOp, loginInner, userEntry, hdial, hbind, hs] at hnone
        | nil =>
        rcases hb : dir.bind e.DN password with _ | be
        · rcases hie : identityFromEntry c e with err | id0
          · simp [Login, doOp, loginInner, userEntry, hdial, hbind, hs, hb, hie] at hnone
          · cases hsg : s.Groups
            · simp [Login, doOp, loginInner, userEntry, hdial, hbind, hs, hb, hie, hsg] at hfalse
            · rcases hgr : groups c dir 1 e with ⟨res, ev2⟩
              cases res with
              | error ge =>
                simp [Login, doOp, loginInner, userEntry, hdial, hbind, hs, hb, hie, hsg, hgr]
                  at hnone
              | ok gl =>
                simp [Login, doOp, loginInner, userEntry, hdial, hbind, hs, hb, hie, hsg, hgr]
                  at hfalse
        · cases hbic : bindInvalidCred be
          · simp [Login, doOp, loginInner, userEntry, hdial, hbind, hs, hb, hbic] at hnone
          · exact Or.inr ⟨e, rfl, be, hb, hbic⟩

/-- Claim C2: with a reachable directory, when the opaque state decodes
to a username and cached entry, Refresh treats a user lookup that finds
no entry as a hard error (unlike Login), and a distinguished-name
mismatch between the fresh entry and the cached entry as a hard error;
in both cases it returns the caller's identity together with a non-nil
error rather than a refreshed identity. -/
theorem claim_C2 (c : ldapConnector) (dir : Dir) (s : Scopes) (ident : Identity)
    (data : refreshData)
    (hdec : unmarshalRefreshData ident.ConnectorData = .ok data)
    (hdial : dir.dialErr = none) (hbind : dir.bind c.BindDN c.BindPW = none) :
    (dir.search (userSearchRequest c data.Username) = .ok [] →
      (Refresh c dir s ident).1 = (ident, some (.userNotFound data.Username)))
    ∧ (∀ e, dir.search (userSearchRequest c data.Username) = .ok [e] →
        e.DN ≠ data.Entry.DN →
        (Refresh c dir s ident).1 =
          (ident, some (.dnMismatch data.Username data.Entry.DN e.DN))) := by
  constructor
  · intro hs
    simp [Refresh, doOp, userEntry, hdec, hdial, hbind, hs]
  · intro e hs hdn
    simp [Refresh, doOp, userEntry, hdec, hdial, hbind, hs, hdn]

/-- Claim C10: the identity Refresh returns alongside an error is not
uniform: on state-decode failure, lookup failure, user-not-found,
DN mismatch, and identity-mapping failure it returns the caller's input
identity unchanged, but on group-resolution failure it returns the
zero-value identity instead. -/
theorem claim_C10 (c : ldapConnector) (dir : Dir) (s : Scopes) (ident : Identity) :
    (∀ msg, unmarshalRefreshData ident.ConnectorData = .error msg →
      (Refresh c dir s ident).1 = (ident, some (.unmarshal msg)))
    ∧ (∀ data, unmarshalRefreshData ident.ConnectorData = .ok data →
       dir.dialErr = none → dir.bind c.BindDN c.BindPW = none →
        (∀ msg, dir.search (userSearchRequest c data.Username) = .error msg →
          ∃ err, (Refresh c dir s ident).1 = (ident, some err))
        ∧ (dir.search (userSearchRequest c data.Username) = .ok [] →
          ∃ err, (Refresh c dir s ident).1 = (ident, some err))
        ∧ (∀ e, dir.search (userSearchRequest c data.Username) = .ok [e] →
            e.DN ≠ data.Entry.DN →
            ∃ err, (Refresh c dir s ident).1 = (ident, some err))
        ∧ (∀ e err2, dir.search (userSearchRequest c data.Username) = .ok [e] →
            e.DN = data.Entry.DN → identityFromEntry c e = .error err2 →
            (Refresh c dir s ident).1 = (ident, some err2))
        ∧ (∀ e i msg, dir.search (userSearchRequest c data.Username) = .ok [e] →
            e.DN = data.Entry.DN → identityFromEntry c e = .ok i → s.Groups = true →
            dir.search (groupsSearchRequest c e) = .error msg →
            ∃ err, (Refresh c dir s ident).1 = (Identity.zero, some err))) := by
  constructor
  · intro msg hdec
    simp [Refresh, hdec]
  · intro data hdec hdial hbind
    refine ⟨?_, ?_, ?_, ?_, ?_⟩
    · intro msg hs
      exact ⟨.searchFailed (userSearchRequest c data.Username).Filter msg,
        by simp [Refresh, doOp, userEntry, hdec, hdial, hbind, hs]⟩
    · intro hs
      exact ⟨.userNotFound data.Username,
        by simp [Refresh, doOp, userEntry, hdec, hdial, hbind, hs]⟩
    · intro e hs hdn
      exact ⟨.dnMismatch data.Username data.Entry.DN e.DN,
        by simp [Refresh, doOp, userEntry, hdec, hdial, hbind, hs, hdn]⟩
    · intro e err2 hs hdn hie
      simp [Refresh, doOp, userEntry, hdec, hdial, hbind, hs, hdn, hie]
    · intro e i msg hs hdn hie hsg hgs
      exact ⟨.queryGroups (.groupSearchFailed msg),
        by simp [Refresh, doOp, userEntry, groups, hdec, hdial, hbind, hs, hdn, hie, hsg, hgs]⟩

/-- Claim C8 (amended): during Login, the credential bind as the found
entry's DN is a separate, later bind step than the service-account
bind, but it is performed on the same connection: Login rebinds the
connection on which the service account bound (connection 0 of the
trace) rather than using a separate connection. -/
theorem claim_C8 (c : ldapConnector) (dir : Dir) (s : Scopes) (username password : String)
    (e : Entry)
    (hdial : dir.dialErr = none) (hbind : dir.bind c.BindDN c.BindPW = none)
    (hs : dir.search (userSearchRequest c username) = .ok [e]) :
    ((Login c dir s username password).2).take 4 =
      [.dial 0, .bind 0 c.BindDN c.BindPW, .search 0 (userSearchRequest c username),
       .bind 0 e.DN password] := by
  rcases hb : dir.bind e.DN password with _ | be
  · rcases hie : identityFromEntry c e with err | id0
    · simp [Login, doOp, loginInner, userEntry, hdial, hbind, hs, hb, hie]
    · cases hsg : s.Groups
      · simp [Login, doOp, loginInner, userEntry, hdial, hbind, hs, hb, hie, hsg]
      · rcases hgr : groups c dir 1 e with ⟨res, ev2⟩
        cases res with
        | error ge =>
          simp [Login, doOp, loginInner, userEntry, hdial, hbind, hs, hb, hie, hsg, hgr,
            List.take_append]
        | ok gl =>
          simp [Login, doOp, loginInner, userEntry, hdial, hbind, hs, hb, hie, hsg, hgr,
            List.take_append]
  · cases hbic : bindInvalidCred be
    · simp [Login, doOp, loginInner, userEntry, hdial, hbind, hs, hb, hbic]
    · simp [Login, doOp, loginInner, userEntry, hdial, hbind, hs, hb, hbic]

/-- Claim C8, counterexample to the claim as stated: in a concrete
successful Login, the service-account bind and the end-user credential
bind happen on the same connection (connection 0): the connection the
service account bound is exactly the one rebound with the user's
credentials, so the two binds are separate steps but not separate
connections. -/
theorem claim_C8_counterexample :
    (Login conA dirHappy { OfflineAccess := false, Groups := false } "jdoe" "goodpw").2 =
      [.dial 0, .bind 0 "cn=svc" "svcpw",
       .search 0 (userSearchRequest conA "jdoe"),
       .bind 0 "cn=jdoe,dc=example" "goodpw", .close 0] ∧
    Event.bind 0 "cn=svc" "svcpw" ∈
      (Login conA dirHappy { OfflineAccess := false, Groups := false } "jdoe" "goodpw").2 ∧
    Event.bind 0 "cn=jdoe,dc=example" "goodpw" ∈
      (Login conA dirHappy { OfflineAccess := false, Groups := false } "jdoe" "goodpw").2 := by
  refine ⟨?_, ?_, ?_⟩ <;> decide

/-! ## Witnesses -/

/-- Concrete instance of claim C1: a login for an unknown username
returns the zero identity, `validPass = false` and no error. -/
theorem claim_C1_witness :
    (Login conA dirEmpty { OfflineAccess := false, Groups := false } "nobody" "pw").1 =
      (Identity.zero, false, none) :=
  (claim_C1 conA dirEmpty { OfflineAccess := false, Groups := false } "nobody" "pw"
    rfl rfl).1 rfl

/-- Concrete instance of claim C2: a refresh whose fresh lookup finds
the user under a different DN fails with the DN-mismatch error and hands
back the input identity. -/
theorem claim_C2_witness :
    (Refresh conA dirMoved { OfflineAccess := false, Groups := false } identJdoe).1 =
      (identJdoe,
       some (.dnMismatch "jdoe" "cn=jdoe,dc=example" "cn=jdoe,ou=people,dc=example")) :=
  (claim_C2 conA dirMoved { OfflineAccess := false, Groups := false } identJdoe
      { Username := "jdoe", Entry := entryJdoe } rfl rfl rfl).2
    { entryJdoe with DN := "cn=jdoe,ou=people,dc=example" } rfl (by decide)

/-- Concrete instance of claim C3: an entry carrying the configured id
and email attributes maps to an identity successfully. -/
theorem claim_C3_witness : ∃ i, identityFromEntry conA entryJdoe = .ok i :=
  (claim_C3 conA entryJdoe).1.mpr (by decide)

/-- Concrete instance of claim C4: a user in two well-named groups
resolves to exactly those two names in response order. -/
theorem claim_C4_witness :
    (groups conA dirGroups 0 entryJdoe).1 = .ok ["admins", "devs"] :=
  (claim_C4 conA dirGroups 0 entryJdoe [groupAdmins, groupDevs] rfl rfl rfl).2.2 (by decide)

/-- Concrete instance of claim C5: a username full of filter
metacharacters is escaped into the equality clause, and the escaped
value denotes exactly the original literal string. -/
theorem claim_C5_witness :
    (userSearchRequest conA "jo(hn)*").Filter = "(uid=jo\\28hn\\29\\2a)" ∧
    unescapeValue (escapeFilter "jo(hn)*").data = some "jo(hn)*".data :=
  ⟨(claim_C5 conA "jo(hn)*" Entry.zero).1.1 rfl,
   (claim_C5 conA "jo(hn)*" Entry.zero).2 "jo(hn)*" (by decide)⟩

/-- Concrete instance of claim C6: a configuration with the unknown
scope string `"base"` makes `OpenConnector` fail. -/
theorem claim_C6_witness : ∃ e, OpenConnector envA cfgBadScope = .error e :=
  claim_C6.2.2.2.2 envA cfgBadScope (Or.inl (by decide))

/-- Concrete instance of claim C8 (amended): the successful Login's
trace starts with the dial, the service-account bind, the user search
and the credential bind, all on connection 0. -/
theorem claim_C8_witness :
    ((Login conA dirHappy { OfflineAccess := false, Groups := false } "jdoe" "goodpw").2).take 4 =
      [.dial 0, .bind 0 "cn=svc" "svcpw",
       .search 0 (userSearchRequest conA "jdoe"),
       .bind 0 "cn=jdoe,dc=example" "goodpw"] :=
  claim_C8 conA dirHappy { OfflineAccess := false, Groups := false } "jdoe" "goodpw"
    entryJdoe rfl rfl rfl

/-- Concrete instance of claim C9: `getAttr` extracts the first value
of the named attribute. -/
theorem claim_C9_witness : getAttr entryJdoe "uid" = "jdoe" :=
  (claim_C9 entryJdoe "uid").1 [] { Name := "uid", Values := ["jdoe"] }
    [{ Name := "mail", Values := ["jdoe@example.com"] }] rfl (by simp) rfl "jdoe" [] rfl

/-- Concrete instance of claim C10: a refresh with undecodable opaque
state hands back the input identity (not the zero identity) with the
unmarshal error. -/
theorem claim_C10_witness :
    (Refresh conA dirEmpty { OfflineAccess := false, Groups := false } identNoData).1 =
      (identNoData, some (.unmarshal "unexpected end of JSON input")) :=
  (claim_C10 conA dirEmpty { OfflineAccess := false, Groups := false } identNoData).1
    "unexpected end of JSON input" rfl
